import Mathlib

/-!
Shallow embedding of the ChinWag session engine: the session data model and
the mutation operations of `src/stores/sessionStore.ts`, the streaming send
turn and its cancellation/metadata logic of the Chat component, the search
query parser and filter of `src/components/Search.tsx`, and the
export/import (de)serialization path.  JavaScript `Date` values are modelled
by `JsDate` (a valid date carries its millisecond timestamp; `new Date` on
an unparseable string yields the invalid date).  Sources of nondeterminism
in the original code (`uuidv4()`, `new Date()` for the current time, the
model registry contents) are passed as explicit parameters.
-/

namespace ChinWag

/-- Message role, from `types.ts` (`'user' | 'assistant' | 'system'`). -/
inductive Role
  | user
  | assistant
  | system
deriving DecidableEq, Repr

/-- A chat message, from `types.ts`. -/
structure Message where
  role : Role
  content : String
deriving DecidableEq, Repr

/-- The option keys of the `Options` object (temperature, top_k, top_p,
repeat_penalty, stop, stream) used by the settings sidebar and the store. -/
inductive OptKey
  | temperature
  | top_k
  | top_p
  | repeat_penalty
  | stop
  | stream
deriving DecidableEq, Repr

/-- Enumeration of all option keys (for `Object.keys`-style emptiness tests). -/
def OptKey.allKeys : List OptKey :=
  [.temperature, .top_k, .top_p, .repeat_penalty, .stop, .stream]

instance : Fintype OptKey :=
  ⟨⟨{.temperature, .top_k, .top_p, .repeat_penalty, .stop, .stream}, by decide⟩,
   by intro k; cases k <;> decide⟩

/-- Values an option key may hold (numbers, stop-sequence lists, the
stream flag). -/
inductive OptValue
  | num (x : Rat)
  | strList (l : List String)
  | flag (b : Bool)
deriving DecidableEq, Repr

/-- A (partial) options object: each key is present with a value or absent,
mirroring `Partial<Options>`. -/
abbrev OptionsMap := OptKey → Option OptValue

/-- The `{}` options object. -/
def emptyOptions : OptionsMap := fun _ => none

/-- JS `delete obj[key]`. -/
def deleteKey (m : OptionsMap) (k : OptKey) : OptionsMap :=
  fun j => if j = k then none else m j

/-- JS `Object.keys(m).length === 0`. -/
def isEmptyOptions (m : OptionsMap) : Bool :=
  OptKey.allKeys.all (fun k => (m k).isNone)

/-- JS spread `{...a, ...b}` where `a` and `b` may each be `undefined`
(spreading `undefined` contributes nothing).  The result is always a present
object. -/
def spreadOptions (a b : Option OptionsMap) : OptionsMap :=
  fun k =>
    match b with
    | some bm =>
      match bm k with
      | some v => some v
      | none => match a with
        | some am => am k
        | none => none
    | none =>
      match a with
      | some am => am k
      | none => none

/-- A JavaScript `Date`: either a valid date with a millisecond timestamp or
the Invalid Date produced by `new Date(<unparseable>)`. -/
inductive JsDate
  | valid (t : Nat)
  | invalidDate
deriving DecidableEq, Repr

/-- A `ChatSession` from `types.ts`, as held by the store (dates in memory
as native time values). -/
structure ChatSession where
  id : String
  name : String
  systemPrompt : String
  messages : List Message
  model : String
  options : Option OptionsMap
  tags : List String
  notes : String
  isBookmarked : Bool
  isFavorite : Bool
  createdAt : JsDate
  updatedAt : JsDate
deriving DecidableEq

/-- The Zustand store state of `sessionStore.ts` (`SessionState`), restricted
to the fields the claims concern. -/
structure SessionState where
  sessions : List ChatSession
  currentSessionId : Option String
  isGeneratingNameForSessionId : Option String
  isGeneratingTagsForSessionId : Option String
  isGeneratingNotesForSessionId : Option String
  isStreamingResponse : Bool
deriving DecidableEq

def DEFAULT_SYSTEM_PROMPT : String := "You are a helpful AI assistant."

def DEFAULT_SESSION_NAME : String := "New Chat"

/-- `createNewSessionInternal` from `sessionStore.ts`: `uuidv4()` and the
registry's first model are passed in (`freshId`, `defaultModel`), `new
Date()` as `now`.  The object literal has no `options` key, so `options` is
absent. -/
def createNewSessionInternal (freshId defaultModel : String) (now : Nat) : ChatSession :=
  { id := freshId
    name := DEFAULT_SESSION_NAME
    systemPrompt := DEFAULT_SYSTEM_PROMPT
    messages := []
    model := defaultModel
    options := none
    tags := []
    notes := ""
    isBookmarked := false
    isFavorite := false
    createdAt := .valid now
    updatedAt := .valid now }

/-- `get().sessions.find(s => s.id === sessionId)`. -/
def findSession (st : SessionState) (sessionId : String) : Option ChatSession :=
  st.sessions.find? (fun s => s.id == sessionId)

/-- `setCurrentSessionId` from `sessionStore.ts` (no validation). -/
def setCurrentSessionId (sessionId : String) (st : SessionState) : SessionState :=
  { st with currentSessionId := some sessionId }

/-- `addSession` from `sessionStore.ts`. -/
def addSession (freshId defaultModel : String) (now : Nat) (st : SessionState) : SessionState :=
  let newSession := createNewSessionInternal freshId defaultModel now
  { st with sessions := st.sessions ++ [newSession], currentSessionId := some newSession.id }

/-- `deleteSession` from `sessionStore.ts`: filter the session out; if the
collection becomes empty synthesize a fallback and make it current; if the
deleted session was current, current becomes `newSessions[0]?.id || null`. -/
def deleteSession (freshId defaultModel : String) (now : Nat) (sessionId : String)
    (st : SessionState) : SessionState :=
  let newSessions := st.sessions.filter (fun s => s.id != sessionId)
  if newSessions = [] then
    let newFallbackSession := createNewSessionInternal freshId defaultModel now
    { st with sessions := [newFallbackSession], currentSessionId := some newFallbackSession.id }
  else if st.currentSessionId = some sessionId then
    let cur : Option String :=
      match newSessions.head? with
      | some s => if s.id = "" then none else some s.id
      | none => none
    { st with sessions := newSessions, currentSessionId := cur }
  else
    { st with sessions := newSessions }

/-- The `Partial<ChatSession>` updates objects as built by the store's own
callers (`renameSession`, `updateSessionMessages`, ..., `toggleFavorite`);
a field set to `none` is not part of the update.  (No caller ever puts `id`,
`createdAt` or `updatedAt` in an update.) -/
structure SessionUpdates where
  name : Option String := none
  systemPrompt : Option String := none
  messages : Option (List Message) := none
  model : Option String := none
  options : Option (OptionsMap) := none
  tags : Option (List String) := none
  notes : Option String := none
  isBookmarked : Option Bool := none
  isFavorite : Option Bool := none

/-- JS spread `{ ...session, ...updates, updatedAt: new Date() }`. -/
def applyUpdates (s : ChatSession) (u : SessionUpdates) (now : Nat) : ChatSession :=
  { s with
    name := u.name.getD s.name
    systemPrompt := u.systemPrompt.getD s.systemPrompt
    messages := u.messages.getD s.messages
    model := u.model.getD s.model
    options := match u.options with
      | some m => some m
      | none => s.options
    tags := u.tags.getD s.tags
    notes := u.notes.getD s.notes
    isBookmarked := u.isBookmarked.getD s.isBookmarked
    isFavorite := u.isFavorite.getD s.isFavorite
    updatedAt := .valid now }

/-- `updateSession` from `sessionStore.ts` (the model-validity console
warning is a log side effect and is not part of the state transition). -/
def updateSession (now : Nat) (sessionId : String) (u : SessionUpdates)
    (st : SessionState) : SessionState :=
  { st with
    sessions := st.sessions.map (fun s =>
      if s.id == sessionId then applyUpdates s u now else s) }

/-- JS `String.prototype.trim` (whitespace stripped from both ends). -/
def jsTrim (s : String) : String :=
  String.mk (((s.data.dropWhile Char.isWhitespace).reverse.dropWhile Char.isWhitespace).reverse)

/-- `renameSession` from `sessionStore.ts`. -/
def renameSession (now : Nat) (sessionId newName : String) (st : SessionState) : SessionState :=
  if jsTrim newName ≠ "" then
    updateSession now sessionId { name := some (jsTrim newName) } st
  else st

/-- `updateSessionMessages` from `sessionStore.ts`. -/
def updateSessionMessages (now : Nat) (sessionId : String) (messages : List Message)
    (st : SessionState) : SessionState :=
  updateSession now sessionId { messages := some messages } st

/-- `updateSessionOptions` from `sessionStore.ts`: shallow-merges the given
(partial, possibly `undefined`) options over the session's current options.
The argument is `none` when the caller passes `undefined`. -/
def updateSessionOptions (now : Nat) (sessionId : String) (opts : Option OptionsMap)
    (st : SessionState) : SessionState :=
  match findSession st sessionId with
  | some currentSession =>
    updateSession now sessionId
      { options := some (spreadOptions currentSession.options opts) } st
  | none => st

/-- `setSessionTags` from `sessionStore.ts`. -/
def setSessionTags (now : Nat) (sessionId : String) (tags : List String)
    (st : SessionState) : SessionState :=
  updateSession now sessionId { tags := some tags } st

/-- `setSessionNotes` from `sessionStore.ts`. -/
def setSessionNotes (now : Nat) (sessionId : String) (notes : String)
    (st : SessionState) : SessionState :=
  updateSession now sessionId { notes := some notes } st

/-- `toggleBookmark` from `sessionStore.ts`. -/
def toggleBookmark (now : Nat) (sessionId : String) (st : SessionState) : SessionState :=
  match findSession st sessionId with
  | some session => updateSession now sessionId { isBookmarked := some (!session.isBookmarked) } st
  | none => st

/-- `toggleFavorite` from `sessionStore.ts`. -/
def toggleFavorite (now : Nat) (sessionId : String) (st : SessionState) : SessionState :=
  match findSession st sessionId with
  | some session => updateSession now sessionId { isFavorite := some (!session.isFavorite) } st
  | none => st

/-- `setIsStreamingResponse` from `sessionStore.ts`. -/
def setIsStreamingResponse (isStreaming : Bool) (st : SessionState) : SessionState :=
  { st with isStreamingResponse := isStreaming }

/-- The three metadata generation kinds (auto name / tags / notes). -/
inductive MetaKind
  | nameKind
  | tagsKind
  | notesKind
deriving DecidableEq, Repr

/-- Read the per-kind in-flight marker (`isGenerating...ForSessionId`). -/
def markerGet (k : MetaKind) (st : SessionState) : Option String :=
  match k with
  | .nameKind => st.isGeneratingNameForSessionId
  | .tagsKind => st.isGeneratingTagsForSessionId
  | .notesKind => st.isGeneratingNotesForSessionId

/-- Set the per-kind in-flight marker. -/
def markerSet (k : MetaKind) (v : Option String) (st : SessionState) : SessionState :=
  match k with
  | .nameKind => { st with isGeneratingNameForSessionId := v }
  | .tagsKind => { st with isGeneratingTagsForSessionId := v }
  | .notesKind => { st with isGeneratingNotesForSessionId := v }

/-- Role names as they appear in the prompt built from
`msg.role: msg.content.slice(0, 100)`. -/
def roleText : Role → String
  | .user => "user"
  | .assistant => "assistant"
  | .system => "system"

/-- `session.messages.slice(0, 3).map(msg => role + ': ' + content.slice(0, 100)).join('\n')`. -/
def conversationContent (messages : List Message) : String :=
  String.intercalate ("\n")
    ((messages.take 3).map (fun msg => roleText msg.role ++ ": " ++ msg.content.take 100))

/-- The fixed instruction prompt used by each generation kind
(`generateSessionName` / `generateSessionTags` / `generateSessionNotes`). -/
def genPrompt : MetaKind → String
  | .nameKind => "Give this chat session a name based on its content. It should be brief and concise, maximum 4 words. Only reply with the name, no other text, quotes, or punctuation."
  | .tagsKind => "Generate 2-4 relevant tags for this conversation. Each tag should be a single word or short phrase. Reply with only the tags separated by commas, no other text."
  | .notesKind => "Write a brief 1-2 sentence summary of this conversation. Be concise and focus on the main topic or goal. Reply with only the summary, no other text."

/-- One inference call handed to the transport (`ollama.chat` arguments). -/
structure InferenceRequest where
  model : String
  systemContent : String
  userContent : String
  temperature : Rat
deriving DecidableEq

/-- The synchronous prefix of `generateSessionName` / `generateSessionTags` /
`generateSessionNotes` from `sessionStore.ts`, up to the point the inference
call is awaited: `none` models the early `return` (no inference call, no
state change); otherwise the in-flight marker is set and one inference call
is issued.  The guard is exactly
`!session || !session.messages.length || !session.model`. -/
def generateStart (k : MetaKind) (sessionId : String) (st : SessionState) :
    Option (SessionState × InferenceRequest) :=
  match findSession st sessionId with
  | none => none
  | some session =>
    if session.messages.isEmpty || session.model == "" then none
    else
      some (markerSet k (some sessionId) st,
        { model := session.model
          systemContent := genPrompt k
          userContent := conversationContent session.messages
          temperature := (7 : Rat) / 10 })

/-- Result of one streaming send turn (`handleSend` in the Chat component):
the store state when the turn has returned to idle, the sequence of
accumulator values committed to the last message slot (one per chunk, in
arrival order), and the metadata-generation inference calls issued after
the loop. -/
structure SendResult where
  finalState : SessionState
  commitTrace : List String
  metadataRequests : List MetaKind
  didSend : Bool
deriving DecidableEq

/-- State carried through the `for await (const chunk of response)` loop. -/
structure StreamAcc where
  st : SessionState
  acc : String
  commitTrace : List String
  idx : Nat
  aborted : Bool

/-- The abort check at the top of the loop body:
`abortControllerRef.current === null || abortControllerRef.current.signal.aborted`.
`stopAfter = some k` models the user pressing Stop once `k` chunks have been
committed, so the check fires at the arrival of chunk `k` (0-based). -/
def stopFired (stopAfter : Option Nat) (idx : Nat) : Bool :=
  match stopAfter with
  | some k => k ≤ idx
  | none => false

/-- One iteration of the streaming loop of `handleSend`: if the abort check
fires the loop breaks (all later chunks are ignored); otherwise the chunk is
appended to the accumulator and the accumulator replaces the last message
slot of the session as read back from the store
(`[...currentMessages.slice(0, -1), { role: 'assistant', content: streamedContent }]`). -/
def streamStep (now : Nat) (sessionId : String) (stopAfter : Option Nat)
    (a : StreamAcc) (chunk : String) : StreamAcc :=
  if a.aborted then a
  else if stopFired stopAfter a.idx then { a with aborted := true }
  else
    let streamedContent := a.acc ++ chunk
    let currentMessages := (findSession a.st sessionId).elim [] (fun s => s.messages)
    let updatedAssistantMessages :=
      currentMessages.dropLast ++ [{ role := .assistant, content := streamedContent }]
    { st := updateSessionMessages now sessionId updatedAssistantMessages a.st
      acc := streamedContent
      commitTrace := a.commitTrace ++ [streamedContent]
      idx := a.idx + 1
      aborted := false }

/-- `handleSend` from the Chat component (streaming mode,
`session.options?.stream !== false`), driven by the chunk sequence the
transport delivers and by `stopAfter` (the point at which the user presses
Stop, if any).  After the loop — reached both on natural end of stream and
by the abort-check `break` — `triggerMetadataGeneration` runs: when the
session's name still equals the default sentinel it invokes
`generateSessionName`, `generateSessionTags` and `generateSessionNotes`;
`metadataRequests` records the kinds whose guard passes, i.e. for which an
inference call is issued.  The `finally` block resets the global streaming
flag. -/
def handleSendStream (now : Nat) (session : ChatSession) (message : String)
    (chunks : List String) (stopAfter : Option Nat) (st : SessionState) : SendResult :=
  if jsTrim message = "" ∨ session.model = "" then
    { finalState := st, commitTrace := [], metadataRequests := [], didSend := false }
  else
    let st1 := setIsStreamingResponse true st
    let newMessages1 := session.messages ++ [{ role := .user, content := message }]
    let st2 := updateSessionMessages now session.id newMessages1 st1
    let newMessages2 := newMessages1 ++ [{ role := .assistant, content := "" }]
    let st3 := updateSessionMessages now session.id newMessages2 st2
    let res := chunks.foldl (streamStep now session.id stopAfter)
      { st := st3, acc := "", commitTrace := [], idx := 0, aborted := false }
    let metadataRequests :=
      if session.name = DEFAULT_SESSION_NAME then
        [MetaKind.nameKind, MetaKind.tagsKind, MetaKind.notesKind].filter
          (fun k => (generateStart k session.id res.st).isSome)
      else []
    { finalState := setIsStreamingResponse false res.st
      commitTrace := res.commitTrace
      metadataRequests := metadataRequests
      didSend := true }

/-! Search query engine (`src/components/Search.tsx`). -/

/-- Case-insensitive substring containment:
`hay.toLowerCase().includes(pat.toLowerCase())`. -/
def containsSub (needle : List Char) : List Char → Bool
  | [] => needle.isEmpty
  | c :: rest => needle.isPrefixOf (c :: rest) || containsSub needle rest

/-- `String.prototype.toLowerCase` (per-character lowering). -/
def lowerStr (s : String) : String := String.mk (s.data.map Char.toLower)

/-- JS `hay.toLowerCase().includes(pat.toLowerCase())`. -/
def containsCI (hay pat : String) : Bool :=
  containsSub (lowerStr pat).data (lowerStr hay).data

/-- The operator names of the search grammar
`(system|name|tag|note|in|type)`. -/
inductive OpName
  | systemOp
  | nameOp
  | tagOp
  | noteOp
  | inOp
  | typeOp
deriving DecidableEq, Repr

/-- The two legal values of the `type` operator. -/
inductive TypeFilter
  | bookmarked
  | favorite
deriving DecidableEq, Repr

/-- The accumulated operator values (`operators` in `parseSearchQuery`);
a field is `none` when the operator never matched (the empty-string initial
values are filtered out at the end in the source). -/
structure Operators where
  system : Option String := none
  name : Option String := none
  tag : Option String := none
  note : Option String := none
  inMsgs : Option String := none
  type : Option TypeFilter := none
deriving DecidableEq, Repr

/-- The parsed query (`SearchQuery` in `Search.tsx`). -/
structure SearchQuery where
  raw : String
  text : String
  operators : Operators
deriving DecidableEq, Repr

/-- One regex match of `(system|name|tag|note|in|type):("([^"]+)"|(\S+))`:
the operator, the captured value, and the full matched text. -/
structure OpToken where
  op : OpName
  value : List Char
  fullMatch : List Char
deriving DecidableEq, Repr

/-- The unquoted alternative `\S+`: a maximal nonempty run of
non-whitespace characters. -/
def unquotedValue (rest : List Char) : Option (List Char × List Char) :=
  let v := rest.takeWhile (fun c => !c.isWhitespace)
  if v = [] then none else some (v, v)

/-- The value part `("([^"]+)"|(\S+))`: a double-quoted run of one or more
non-quote characters, else a maximal nonempty run of non-whitespace
characters; `none` when neither alternative matches.  Returns the captured
value and the text the value part consumed. -/
def parseValue (rest : List Char) : Option (List Char × List Char) :=
  match rest with
  | '"' :: rest2 =>
    match rest2.drop (rest2.takeWhile (fun c => c ≠ '"')).length with
    | '"' :: _ =>
      if rest2.takeWhile (fun c => c ≠ '"') = [] then unquotedValue rest
      else some (rest2.takeWhile (fun c => c ≠ '"'),
        '"' :: (rest2.takeWhile (fun c => c ≠ '"') ++ ['"']))
    | _ => unquotedValue rest
  | _ => unquotedValue rest

/-- Try to match one `word:` operator head followed by a value at this
position. -/
def tryOp (word : List Char) (op : OpName) (cs : List Char) : Option OpToken :=
  if (word ++ [':']).isPrefixOf cs then
    match parseValue (cs.drop (word.length + 1)) with
    | some (v, vtext) => some { op := op, value := v, fullMatch := word ++ ':' :: vtext }
    | none => none
  else none

/-- The regex alternation at one position, tried in the source's order.
At most one of the six operator words can start at a given position (no
word followed by a colon is a prefix of another), so the order is
immaterial. -/
def matchOpAt (cs : List Char) : Option OpToken :=
  match tryOp ("system".data) .systemOp cs with
  | some tok => some tok
  | none =>
  match tryOp ("name".data) .nameOp cs with
  | some tok => some tok
  | none =>
  match tryOp ("tag".data) .tagOp cs with
  | some tok => some tok
  | none =>
  match tryOp ("note".data) .noteOp cs with
  | some tok => some tok
  | none =>
  match tryOp ("in".data) .inOp cs with
  | some tok => some tok
  | none => tryOp ("type".data) .typeOp cs

/-- The global regex scan (`while ((match = operatorPattern.exec(input))`):
matches are found left to right, each next search resuming at the end of the
previous match.  `fuel` only bounds the recursion (the scan consumes at
least one character per step); it is instantiated with the input length. -/
def scanTokens (fuel : Nat) (cs : List Char) : List OpToken :=
  match fuel, cs with
  | 0, _ => []
  | _, [] => []
  | fuel + 1, c :: rest =>
    match matchOpAt (c :: rest) with
    | some tok => tok :: scanTokens fuel ((c :: rest).drop tok.fullMatch.length)
    | none => scanTokens fuel rest

/-- JS `text.replace(fullMatch, '')` with a plain-string pattern: remove the
first occurrence, if any. -/
def removeFirst (pat : List Char) : List Char → List Char
  | [] => []
  | c :: rest =>
    if pat.isPrefixOf (c :: rest) then (c :: rest).drop pat.length
    else c :: removeFirst pat rest

/-- One iteration of the parse loop: record the operator value (`type` only
accepts `bookmarked` / `favorite` case-insensitively and silently discards
anything else), then strip the matched text out of the free-text residue and
trim it. -/
def applyToken (acc : Operators × String) (tok : OpToken) : Operators × String :=
  let ops := acc.1
  let value := String.mk tok.value
  let newOps :=
    match tok.op with
    | .systemOp => { ops with system := some value }
    | .nameOp => { ops with name := some value }
    | .tagOp => { ops with tag := some value }
    | .noteOp => { ops with note := some value }
    | .inOp => { ops with inMsgs := some value }
    | .typeOp =>
      if lowerStr value = "bookmarked" then { ops with type := some .bookmarked }
      else if lowerStr value = "favorite" then { ops with type := some .favorite }
      else ops
  (newOps, jsTrim (String.mk (removeFirst tok.fullMatch acc.2.data)))

/-- `parseSearchQuery` from `Search.tsx`. -/
def parseSearchQuery (input : String) : SearchQuery :=
  let toks := scanTokens input.data.length input.data
  let folded := toks.foldl applyToken ({}, input)
  { raw := input, text := folded.2, operators := folded.1 }

/-- `searchMessages` from `Search.tsx`. -/
def searchMessages (messages : List Message) (searchText : String) : Bool :=
  messages.any (fun msg => containsCI msg.content searchText)

/-- One string-operator clause of the filter: JS
`query.operators.X && !field.toLowerCase().includes(value.toLowerCase())`
(the truthiness test makes an empty value a non-constraint). -/
def opFailStr (field : String) : Option String → Bool
  | some v => v != "" && !containsCI field v
  | none => false

/-- The `tag` clause (`!session.tags.some(tag => tag.includes(value))`). -/
def opFailTags (tags : List String) : Option String → Bool
  | some v => v != "" && !(tags.any (fun t => containsCI t v))
  | none => false

/-- The `in` clause (`!searchMessages(session.messages, value)`). -/
def opFailIn (messages : List Message) : Option String → Bool
  | some v => v != "" && !searchMessages messages v
  | none => false

/-- The `type` clause. -/
def opFailType (s : ChatSession) : Option TypeFilter → Bool
  | some .bookmarked => !s.isBookmarked
  | some .favorite => !s.isFavorite
  | none => false

/-- The per-session predicate of `filterSessions` (the early-return chain in
the source's `sessions.filter` callback). -/
def sessionMatchesQuery (query : SearchQuery) (s : ChatSession) : Bool :=
  if opFailStr s.systemPrompt query.operators.system then false
  else if opFailStr s.name query.operators.name then false
  else if opFailTags s.tags query.operators.tag then false
  else if opFailStr s.notes query.operators.note then false
  else if opFailIn s.messages query.operators.inMsgs then false
  else if opFailType s query.operators.type then false
  else if query.text == "" then true
  else if containsCI s.name query.text then true
  else if s.tags.any (fun t => containsCI t query.text) then true
  else if containsCI s.notes query.text then true
  else searchMessages s.messages query.text

/-- `filterSessions` from `Search.tsx` (`if (!query.raw) return sessions`). -/
def filterSessions (sessions : List ChatSession) (query : SearchQuery) : List ChatSession :=
  if query.raw = "" then sessions
  else sessions.filter (sessionMatchesQuery query)

/-! Export / import (`exportSessions` / `importSessions` in
`sessionStore.ts`, `handleFileChange` in `SessionsSidebar.tsx`) and the
settings sidebar's option reset (`handleResetOption`). -/

/-- A timestamp field of a raw (JSON) record: absent or falsy
(`missing`), a truthy string that `new Date` parses to `t` (`val t`), or a
truthy string that does not parse (`unparseable`). -/
inductive TimeInput
  | missing
  | val (t : Nat)
  | unparseable
deriving DecidableEq, Repr

/-- `session.createdAt ? new Date(session.createdAt) : new Date()`. -/
def jsDateOfInput (now : Nat) : TimeInput → JsDate
  | .missing => .valid now
  | .val t => .valid t
  | .unparseable => .invalidDate

/-- A raw imported record (an arbitrary JSON object read from the backup
file): every `ChatSession` field may be absent. -/
structure RawRecord where
  id : Option String := none
  name : Option String := none
  systemPrompt : Option String := none
  messages : Option (List Message) := none
  model : Option String := none
  options : Option OptionsMap := none
  tags : Option (List String) := none
  notes : Option String := none
  isBookmarked : Option Bool := none
  isFavorite : Option Bool := none
  createdAt : TimeInput := .missing
  updatedAt : TimeInput := .missing
deriving DecidableEq

/-- JS string truthiness (`s || d` picks `d` when `s` is absent or empty). -/
def strOrDefault (v : Option String) (d : String) : String :=
  match v with
  | some s => if s = "" then d else s
  | none => d

/-- The per-record normalization inside `importSessions` (`uuidv4()` for a
falsy id is passed as `freshId`; the registry's first model as
`defaultModel`).  Note `session.options || {}` always yields a present
object, and a present-but-unparseable timestamp becomes an Invalid Date. -/
def normalizeRecord (now : Nat) (freshId defaultModel : String) (r : RawRecord) : ChatSession :=
  { id := strOrDefault r.id freshId
    name := strOrDefault r.name DEFAULT_SESSION_NAME
    systemPrompt := strOrDefault r.systemPrompt DEFAULT_SYSTEM_PROMPT
    messages := r.messages.getD []
    model := strOrDefault r.model defaultModel
    options := some (r.options.getD emptyOptions)
    tags := r.tags.getD []
    notes := r.notes.getD ("")
    isBookmarked := r.isBookmarked.getD false
    isFavorite := r.isFavorite.getD false
    createdAt := jsDateOfInput now r.createdAt
    updatedAt := jsDateOfInput now r.updatedAt }

/-- `importSessions` from `sessionStore.ts`: normalize every record, replace
the entire collection, and set current to `normalized[0]?.id || null`.
`freshIdAt i` stands for the `uuidv4()` drawn for the i-th record when its
id is falsy. -/
def importSessions (now : Nat) (freshIdAt : Nat → String) (defaultModel : String)
    (importedSessions : List RawRecord) (st : SessionState) : SessionState :=
  let normalized := importedSessions.enum.map
    (fun p => normalizeRecord now (freshIdAt p.1) defaultModel p.2)
  let cur : Option String :=
    match normalized.head? with
    | some s => if s.id = "" then none else some s.id
    | none => none
  { st with sessions := normalized, currentSessionId := cur }

/-- One element of the parsed JSON array handed to `handleFileChange`: a
non-object value, or an object (modelled as a raw record). -/
inductive RawItem
  | nonObject
  | record (r : RawRecord)
deriving DecidableEq

/-- The parsed JSON input: not an array at all, or an array of items. -/
inductive ImportInput
  | notArray
  | arrayOf (items : List RawItem)
deriving DecidableEq

/-- The per-item validation in `handleFileChange`:
`typeof item === 'object' && item.id && item.name` (truthy id and name). -/
def validImportItem : RawItem → Bool
  | .nonObject => false
  | .record r => strOrDefault r.id ("") != "" && strOrDefault r.name ("") != ""

/-- `Array.isArray(json) && json.every(...)`. -/
def validImportInput : ImportInput → Bool
  | .notArray => false
  | .arrayOf items => items.all validImportItem

/-- Extract the records of an array input (total; under `validImportInput`
every item is a record). -/
def itemRecords (items : List RawItem) : List RawRecord :=
  items.filterMap (fun i => match i with | .record r => some r | .nonObject => none)

/-- `handleFileChange` from `SessionsSidebar.tsx`: on a valid input the
records are imported; otherwise an alert is shown (`true` in the second
component) and the store is untouched. -/
def handleFileChange (now : Nat) (freshIdAt : Nat → String) (defaultModel : String)
    (input : ImportInput) (st : SessionState) : SessionState × Bool :=
  match input with
  | .notArray => (st, true)
  | .arrayOf items =>
    if items.all validImportItem then
      (importSessions now freshIdAt defaultModel (itemRecords items) st, false)
    else (st, true)

/-- The export serialization of one timestamp.  `JSON.stringify` applies
`Date.prototype.toJSON` before the replacer: a valid date becomes its
ISO-8601 string, which the replacer re-serializes losslessly
(`new Date(iso).toISOString()`), so it parses back to the same millisecond
value; for an Invalid Date `toJSON` returns `null`, so the replacer
computes `new Date(null).toISOString()` and the export succeeds with the
epoch timestamp `1970-01-01T00:00:00.000Z`. -/
def exportTime : JsDate → TimeInput
  | .valid t => .val t
  | .invalidDate => .val 0

/-- The JSON record `exportSessions` writes for one session (all fields
present; an `undefined` options field is omitted by `JSON.stringify`, so it
stays absent). -/
def exportRecord (s : ChatSession) : RawRecord :=
  { id := some s.id
    name := some s.name
    systemPrompt := some s.systemPrompt
    messages := some s.messages
    model := some s.model
    options := s.options
    tags := some s.tags
    notes := some s.notes
    isBookmarked := some s.isBookmarked
    isFavorite := some s.isFavorite
    createdAt := exportTime s.createdAt
    updatedAt := exportTime s.updatedAt }

/-- `exportSessions` from `sessionStore.ts` (the serialized backup
array). -/
def exportSessions (sessions : List ChatSession) : List RawRecord :=
  sessions.map exportRecord

/-- Spec-side definition for the amended claim C7: the image of one session
under the export/import round trip.  Messages, tags, notes and both flags
are reproduced exactly; absent options come back as an empty options
object; an empty (falsy) id/name/systemPrompt/model is re-defaulted by
`importSessions`' `||` normalization; a valid timestamp round-trips exactly
at the serialized ISO-8601 granularity, while an Invalid Date comes back as
the epoch. -/
def reimportedSession (freshId defaultModel : String) (s : ChatSession) : ChatSession :=
  { id := if s.id = "" then freshId else s.id
    name := if s.name = "" then DEFAULT_SESSION_NAME else s.name
    systemPrompt := if s.systemPrompt = "" then DEFAULT_SYSTEM_PROMPT else s.systemPrompt
    messages := s.messages
    model := if s.model = "" then defaultModel else s.model
    options := some (s.options.getD emptyOptions)
    tags := s.tags
    notes := s.notes
    isBookmarked := s.isBookmarked
    isFavorite := s.isFavorite
    createdAt := match s.createdAt with
      | .valid t => .valid t
      | .invalidDate => .valid 0
    updatedAt := match s.updatedAt with
      | .valid t => .valid t
      | .invalidDate => .valid 0 }

/-- `handleResetOption` from the settings sidebar: copy the session's
options (or `{}`), delete the key, and hand the result — `undefined` when it
became empty — to `updateSessionOptions`. -/
def handleResetOption (now : Nat) (sessionId : String) (sessionOptions : Option OptionsMap)
    (k : OptKey) (st : SessionState) : SessionState :=
  let newOptions := deleteKey (sessionOptions.getD emptyOptions) k
  updateSessionOptions now sessionId
    (if isEmptyOptions newOptions then none else some newOptions) st

/-! Specification-side definitions (written from the claims' wording, for
refinement comparisons). -/

/-- Spec side of claim C6, one operator clause: "system/name/note as
case-insensitive substring of the respective field". -/
def specOpHoldsStr (field : String) : Option String → Bool
  | some v => containsCI field v
  | none => true

/-- Spec side: "tag matching at least one tag". -/
def specOpHoldsTags (tags : List String) : Option String → Bool
  | some v => tags.any (fun t => containsCI t v)
  | none => true

/-- Spec side: "in matching at least one message's content". -/
def specOpHoldsIn (messages : List Message) : Option String → Bool
  | some v => messages.any (fun m => containsCI m.content v)
  | none => true

/-- Spec side: "type:bookmarked requiring isBookmarked and type:favorite
requiring isFavorite". -/
def specOpHoldsType (s : ChatSession) : Option TypeFilter → Bool
  | some .bookmarked => s.isBookmarked
  | some .favorite => s.isFavorite
  | none => true

/-- Spec side of claim C6: a session is kept iff it satisfies the
conjunction of all operators present after parsing and, when residual free
text is present, at least one of name, any tag, notes, or any message
content contains it case-insensitively; an empty raw input keeps every
session. -/
def specKeepsSession (query : SearchQuery) (s : ChatSession) : Bool :=
  if query.raw = "" then true
  else
    specOpHoldsStr s.systemPrompt query.operators.system &&
    specOpHoldsStr s.name query.operators.name &&
    specOpHoldsTags s.tags query.operators.tag &&
    specOpHoldsStr s.notes query.operators.note &&
    specOpHoldsIn s.messages query.operators.inMsgs &&
    specOpHoldsType s query.operators.type &&
    (query.text == "" ||
      containsCI s.name query.text ||
      s.tags.any (fun t => containsCI t query.text) ||
      containsCI s.notes query.text ||
      s.messages.any (fun m => containsCI m.content query.text))

/-! Concrete fixtures (test data for witnesses and counterexamples). -/

/-- A store with the given sessions and current id, no generation in flight,
not streaming. -/
def mkStore (ss : List ChatSession) (cur : Option String) : SessionState :=
  { sessions := ss
    currentSessionId := cur
    isGeneratingNameForSessionId := none
    isGeneratingTagsForSessionId := none
    isGeneratingNotesForSessionId := none
    isStreamingResponse := false }

def msgHi : Message := { role := .user, content := "hi" }

/-- A plain session fixture. -/
def sessionA : ChatSession :=
  { id := "a"
    name := "Alpha"
    systemPrompt := "sp"
    messages := [msgHi]
    model := "m1"
    options := none
    tags := ["work"]
    notes := ""
    isBookmarked := false
    isFavorite := false
    createdAt := .valid 0
    updatedAt := .valid 0 }

/-- An options object holding only a temperature override. -/
def tempOnlyOptions : OptionsMap :=
  fun k => if k = .temperature then some (.num 1) else none

/-- A session fixture whose options hold a single override. -/
def sessionT : ChatSession := { sessionA with options := some tempOnlyOptions }

/-- A session fixture with an empty system prompt. -/
def sessionEmptyPrompt : ChatSession := { sessionA with systemPrompt := "" }

/-- A session fixture whose stored `createdAt` is an Invalid Date. -/
def sessionInvalidDate : ChatSession := { sessionA with createdAt := .invalidDate }

/-- A session fixture still carrying the default sentinel name. -/
def sessionNew : ChatSession := { sessionA with name := DEFAULT_SESSION_NAME }

/-- A store in which a name generation for session `a` is already in
flight. -/
def inFlightStore : SessionState :=
  { mkStore [sessionA] (some sessionA.id) with
    isGeneratingNameForSessionId := some sessionA.id }

/-- An id no session of the fixtures carries. -/
def idB : String := "b"

/-- A fresh uuid fixture. -/
def freshF : String := "f"

/-- A model name fixture. -/
def modelM : String := "m1"

/-- Claim C3's post-condition: when a current session id is set, it
references an existing session of the collection (never dangling). -/
def currentRefsExisting (st : SessionState) : Bool :=
  match st.currentSessionId with
  | none => true
  | some cid => st.sessions.any (fun s => s.id == cid)

/-- The chunk sequence of the streaming test scenarios (claims C1 and
C5). -/
def chunks3 : List String := ["Hel", "lo", " world"]

/-- The message typed into the input box in the test scenarios. -/
def msgSend : String := "Hi"

/-- Statement helper: the successive accumulator values produced by
appending each chunk in arrival order, starting from `acc`. -/
def accPrefixes (acc : String) : List String → List String
  | [] => []
  | c :: rest => (acc ++ c) :: accPrefixes (acc ++ c) rest

/-- The store of the cancellation scenario of claim C1: one session that
still carries the default sentinel name. -/
def c1Store : SessionState := mkStore [sessionNew] (some sessionA.id)

/-- The cancellation scenario of claim C1: a streaming send turn over the
three chunks, with the Stop action fired once two chunks have been
committed (so the abort check fires at the arrival of the third chunk). -/
def c1Result : SendResult :=
  handleSendStream 3 sessionNew msgSend chunks3 (some 2) c1Store

/-! Helper lemmas. -/

theorem markerGet_markerSet (k : MetaKind) (v : Option String) (st : SessionState) :
    markerGet k (markerSet k v st) = v := by
  cases k <;> rfl

theorem applyUpdates_id (s : ChatSession) (u : SessionUpdates) (now : Nat) :
    (applyUpdates s u now).id = s.id := rfl

theorem findSession_updateSession (now : Nat) (sessionId : String) (u : SessionUpdates)
    (st : SessionState) :
    findSession (updateSession now sessionId u st) sessionId =
      (findSession st sessionId).map (fun s => applyUpdates s u now) := by
  unfold findSession updateSession
  rw [List.find?_map]
  have hq : ((fun s : ChatSession => s.id == sessionId) ∘
      (fun s => if s.id == sessionId then applyUpdates s u now else s)) =
      (fun s : ChatSession => s.id == sessionId) := by
    funext s
    by_cases h : s.id = sessionId
    · simp [h, applyUpdates_id]
    · simp [h]
  rw [hq]
  cases hfind : st.sessions.find? (fun s => s.id == sessionId) with
  | none => rfl
  | some s =>
    have hp : s.id = sessionId := by simpa using List.find?_some hfind
    simp [hp]

theorem findSession_map_field (now : Nat) (sessionId : String) (u : SessionUpdates)
    (st : SessionState) (f : ChatSession → Bool)
    (hf : ∀ s, f (applyUpdates s u now) = f s) :
    (updateSession now sessionId u st).sessions.map f = st.sessions.map f := by
  unfold updateSession
  rw [List.map_map]
  apply List.map_congr_left
  intro s _
  by_cases h : s.id = sessionId
  · simp [h, hf]
  · simp [h]

theorem toggleBookmark_not_found (now : Nat) (sessionId : String) (st : SessionState)
    (h : findSession st sessionId = none) : toggleBookmark now sessionId st = st := by
  unfold toggleBookmark
  rw [h]

theorem toggleFavorite_not_found (now : Nat) (sessionId : String) (st : SessionState)
    (h : findSession st sessionId = none) : toggleFavorite now sessionId st = st := by
  unfold toggleFavorite
  rw [h]

theorem findSession_toggleBookmark (now : Nat) (sessionId : String) (st : SessionState)
    (s : ChatSession) (h : findSession st sessionId = some s) :
    findSession (toggleBookmark now sessionId st) sessionId =
      some (applyUpdates s { isBookmarked := some (!s.isBookmarked) } now) := by
  unfold toggleBookmark
  rw [h, findSession_updateSession, h]
  rfl

theorem findSession_toggleFavorite (now : Nat) (sessionId : String) (st : SessionState)
    (s : ChatSession) (h : findSession st sessionId = some s) :
    findSession (toggleFavorite now sessionId st) sessionId =
      some (applyUpdates s { isFavorite := some (!s.isFavorite) } now) := by
  unfold toggleFavorite
  rw [h, findSession_updateSession, h]
  rfl

/-! Claim theorems. -/

/-- Claim C9: for every existing session, `toggleBookmark` and
`toggleFavorite` are involutions on the respective flag (applying the same
toggle twice restores the flag's original value) and are independent
(toggling one never changes the value of the other flag, for any session in
the store). -/
theorem c9_toggles_involutive_independent (st : SessionState) (now now2 : Nat)
    (sessionId : String) :
    ((findSession (toggleBookmark now2 sessionId (toggleBookmark now sessionId st))
        sessionId).map (fun s => s.isBookmarked) =
      (findSession st sessionId).map (fun s => s.isBookmarked))
    ∧ ((findSession (toggleFavorite now2 sessionId (toggleFavorite now sessionId st))
        sessionId).map (fun s => s.isFavorite) =
      (findSession st sessionId).map (fun s => s.isFavorite))
    ∧ ((toggleBookmark now sessionId st).sessions.map (fun s => s.isFavorite) =
      st.sessions.map (fun s => s.isFavorite))
    ∧ ((toggleFavorite now sessionId st).sessions.map (fun s => s.isBookmarked) =
      st.sessions.map (fun s => s.isBookmarked)) := by
  refine ⟨?_, ?_, ?_, ?_⟩
  · cases h : findSession st sessionId with
    | none =>
      rw [toggleBookmark_not_found now sessionId st h,
        toggleBookmark_not_found now2 sessionId st h, h]
    | some s =>
      rw [findSession_toggleBookmark now2 sessionId _ _
          (findSession_toggleBookmark now sessionId st s h)]
      simp [applyUpdates]
  · cases h : findSession st sessionId with
    | none =>
      rw [toggleFavorite_not_found now sessionId st h,
        toggleFavorite_not_found now2 sessionId st h, h]
    | some s =>
      rw [findSession_toggleFavorite now2 sessionId _ _
          (findSession_toggleFavorite now sessionId st s h)]
      simp [applyUpdates]
  · cases h : findSession st sessionId with
    | none => rw [toggleBookmark_not_found now sessionId st h]
    | some s =>
      unfold toggleBookmark
      rw [h]
      exact findSession_map_field now sessionId _ st _ (fun s2 => rfl)
  · cases h : findSession st sessionId with
    | none => rw [toggleFavorite_not_found now sessionId st h]
    | some s =>
      unfold toggleFavorite
      rw [h]
      exact findSession_map_field now sessionId _ st _ (fun s2 => rfl)

/-- Claim C10: `updateSessionOptions` shallow-merges the update over the
session's existing options, so it can only add or overwrite option keys,
never remove one: every key present before is present afterwards, with the
update's value if the update carries the key and its prior value
otherwise. -/
theorem c10_updateSessionOptions_never_removes (st : SessionState) (now : Nat)
    (sessionId : String) (u : Option OptionsMap) (s : ChatSession) (m : OptionsMap)
    (k : OptKey) (v : OptValue)
    (hfind : findSession st sessionId = some s)
    (hopts : s.options = some m) (hk : m k = some v) :
    ∃ s2, findSession (updateSessionOptions now sessionId u st) sessionId = some s2 ∧
      ∃ m2, s2.options = some m2 ∧
        m2 k = some ((u.bind (fun um => um k)).getD v) := by
  unfold updateSessionOptions
  rw [hfind, findSession_updateSession, hfind]
  refine ⟨_, rfl, spreadOptions s.options u, rfl, ?_⟩
  rw [hopts]
  unfold spreadOptions
  cases u with
  | none => simp [hk]
  | some um => cases hu : um k <;> simp [hk, hu]

/-- Witness for C10 at a concrete store: the temperature override survives
a merge with an update that does not mention it. -/
theorem c10_witness :
    ∃ s2, findSession (updateSessionOptions 1 sessionA.id (some emptyOptions)
        (mkStore [sessionT] (some sessionA.id))) sessionA.id = some s2 ∧
      ∃ m2, s2.options = some m2 ∧ m2 OptKey.temperature = some (OptValue.num 1) :=
  c10_updateSessionOptions_never_removes (mkStore [sessionT] (some sessionA.id)) 1
    sessionA.id (some emptyOptions) sessionT tempOnlyOptions OptKey.temperature
    (OptValue.num 1) rfl rfl rfl

/-- Claim C2 (amended): each of the three metadata generators is a no-op
exactly when the session does not exist, has no messages, or has no model
configured; when it proceeds it sets the per-kind in-flight marker to the
session id.  (The source has no in-flight guard: see the
counterexample.) -/
theorem c2_generation_noop_guard (st : SessionState) (sessionId : String) (k : MetaKind) :
    (generateStart k sessionId st = none ↔
      (match findSession st sessionId with
        | none => True
        | some s => s.messages = [] ∨ s.model = ""))
    ∧ (∀ p, generateStart k sessionId st = some p → markerGet k p.1 = some sessionId) := by
  cases h : findSession st sessionId with
  | none => simp [generateStart, h]
  | some s =>
    simp only [generateStart, h]
    by_cases hc : (s.messages.isEmpty || s.model == "") = true
    · rw [if_pos hc]
      simp only [Bool.or_eq_true, List.isEmpty_iff, beq_iff_eq] at hc
      simp [hc]
    · rw [if_neg hc]
      simp only [Bool.or_eq_true, List.isEmpty_iff, beq_iff_eq] at hc
      push_neg at hc
      constructor
      · simp [hc.1, hc.2]
      · intro p hp
        rw [← Option.some_inj.mp hp]
        exact markerGet_markerSet k (some sessionId) st

/-- Witness for C2 at a concrete store: a session with no messages makes
the generator a no-op, and one with messages and a model proceeds and sets
the marker. -/
theorem c2_witness :
    generateStart .nameKind sessionA.id
        (mkStore [{ sessionA with messages := [] }] (some sessionA.id)) = none ∧
    markerGet .nameKind (markerSet .nameKind (some sessionA.id)
        (mkStore [sessionA] (some sessionA.id))) = some sessionA.id := by
  constructor
  · exact (c2_generation_noop_guard
      (mkStore [{ sessionA with messages := [] }] (some sessionA.id))
      sessionA.id .nameKind).1.mpr (Or.inl rfl)
  · exact (c2_generation_noop_guard (mkStore [sessionA] (some sessionA.id))
      sessionA.id .nameKind).2 _ rfl

/-- Counterexample to C2 as stated: a name generation for session `a` is
already in flight, the session exists with messages and a model, and yet
`generateSessionName` is not a no-op — it proceeds past the guard and
issues another inference call. -/
theorem c2_counterexample :
    markerGet .nameKind inFlightStore = some sessionA.id ∧
    (generateStart .nameKind sessionA.id inFlightStore).isSome = true := by
  exact ⟨rfl, rfl⟩

/-- Claim C8 (the code bug): resetting the last remaining option override
leaves the options object unchanged (the deleted key survives the shallow
merge in `updateSessionOptions`), and importing a record with no options
stores an empty options object rather than leaving the field absent. -/
theorem c8_options_not_normalized_to_absent :
    (∃ s2, findSession (handleResetOption 1 sessionA.id sessionT.options
        OptKey.temperature (mkStore [sessionT] (some sessionA.id))) sessionA.id = some s2 ∧
      ∃ m2, s2.options = some m2 ∧ m2 OptKey.temperature = some (OptValue.num 1))
    ∧ (normalizeRecord 0 ("u") ("") { id := some ("r1"), name := some ("n") }).options =
        some emptyOptions := by
  exact ⟨⟨_, rfl, _, rfl, rfl⟩, rfl⟩

theorem deleteSession_empty_case (freshId defaultModel : String) (now : Nat)
    (sessionId : String) (st : SessionState)
    (h : st.sessions.filter (fun s => s.id != sessionId) = []) :
    deleteSession freshId defaultModel now sessionId st =
      { st with
        sessions := [createNewSessionInternal freshId defaultModel now],
        currentSessionId := some (createNewSessionInternal freshId defaultModel now).id } := by
  unfold deleteSession
  simp [h]

theorem deleteSession_current_case (freshId defaultModel : String) (now : Nat)
    (sessionId : String) (st : SessionState)
    (hne : st.sessions.filter (fun s => s.id != sessionId) ≠ [])
    (hcur : st.currentSessionId = some sessionId) :
    deleteSession freshId defaultModel now sessionId st =
      { st with
        sessions := st.sessions.filter (fun s => s.id != sessionId),
        currentSessionId :=
          (match (st.sessions.filter (fun s => s.id != sessionId)).head? with
            | some s => if s.id = "" then none else some s.id
            | none => none) } := by
  unfold deleteSession
  simp [hne, hcur]

theorem deleteSession_other_case (freshId defaultModel : String) (now : Nat)
    (sessionId : String) (st : SessionState)
    (hne : st.sessions.filter (fun s => s.id != sessionId) ≠ [])
    (hcur : st.currentSessionId ≠ some sessionId) :
    deleteSession freshId defaultModel now sessionId st =
      { st with
        sessions := st.sessions.filter (fun s => s.id != sessionId) } := by
  unfold deleteSession
  simp [hne, hcur]

/-- Claim C3 (amended): `deleteSession` always leaves a nonempty collection,
synthesizes exactly one fresh default session (made current) when the
collection would become empty, makes the first remaining session current
when the current session was deleted, and preserves the
current-id-references-an-existing-session invariant; `setCurrentSessionId`
preserves the invariant when (and only because) the given id belongs to an
existing session; `addSession` establishes it unconditionally.  (As stated
the claim fails: `setCurrentSessionId` performs no validation — see the
counterexample.) -/
theorem c3_delete_select_invariants (st : SessionState) (freshId defaultModel : String)
    (now : Nat) (sessionId : String) :
    ((deleteSession freshId defaultModel now sessionId st).sessions ≠ [])
    ∧ (currentRefsExisting st = true →
        currentRefsExisting (deleteSession freshId defaultModel now sessionId st) = true)
    ∧ (st.sessions.filter (fun s => s.id != sessionId) = [] →
        (deleteSession freshId defaultModel now sessionId st).sessions =
            [createNewSessionInternal freshId defaultModel now] ∧
          (deleteSession freshId defaultModel now sessionId st).currentSessionId =
            some freshId)
    ∧ (∀ s0 rest, st.currentSessionId = some sessionId →
        st.sessions.filter (fun s => s.id != sessionId) = s0 :: rest → s0.id ≠ "" →
        (deleteSession freshId defaultModel now sessionId st).currentSessionId = some s0.id)
    ∧ (st.sessions.any (fun s => s.id == sessionId) = true →
        currentRefsExisting (setCurrentSessionId sessionId st) = true)
    ∧ currentRefsExisting (addSession freshId defaultModel now st) = true := by
  refine ⟨?_, ?_, ?_, ?_, ?_, ?_⟩
  · by_cases h0 : st.sessions.filter (fun s => s.id != sessionId) = []
    · rw [deleteSession_empty_case freshId defaultModel now sessionId st h0]
      simp
    · by_cases hcur : st.currentSessionId = some sessionId
      · rw [deleteSession_current_case freshId defaultModel now sessionId st h0 hcur]
        simpa using h0
      · rw [deleteSession_other_case freshId defaultModel now sessionId st h0 hcur]
        simpa using h0
  · intro hv
    by_cases h0 : st.sessions.filter (fun s => s.id != sessionId) = []
    · rw [deleteSession_empty_case freshId defaultModel now sessionId st h0]
      simp [currentRefsExisting]
    · by_cases hcur : st.currentSessionId = some sessionId
      · rw [deleteSession_current_case freshId defaultModel now sessionId st h0 hcur]
        cases hh : (st.sessions.filter (fun s => s.id != sessionId)).head? with
        | none => simp [currentRefsExisting, hh]
        | some s0 =>
          by_cases hid : s0.id = ""
          · simp [currentRefsExisting, hh, hid]
          · have hmem : s0 ∈ st.sessions.filter (fun s => s.id != sessionId) :=
              List.mem_of_mem_head? hh
            have hany : (st.sessions.filter (fun s => s.id != sessionId)).any
                (fun s => s.id == s0.id) = true := by
              simp only [List.any_eq_true]
              exact ⟨s0, hmem, by simp⟩
            simp [currentRefsExisting, hh, hid, hany]
      · rw [deleteSession_other_case freshId defaultModel now sessionId st h0 hcur]
        unfold currentRefsExisting at hv ⊢
        cases hcid : st.currentSessionId with
        | none => simp
        | some cid =>
          rw [hcid] at hv
          simp only [List.any_eq_true] at hv ⊢
          obtain ⟨s1, hs1, hs1id⟩ := hv
          refine ⟨s1, ?_, hs1id⟩
          rw [List.mem_filter]
          refine ⟨hs1, ?_⟩
          have hcidne : cid ≠ sessionId := by
            intro he
            exact hcur (by rw [hcid, he])
          simp only [bne_iff_ne, ne_eq]
          intro he
          exact hcidne (by
            have : s1.id = cid := by simpa using hs1id
            rw [← this, he])
  · intro h0
    rw [deleteSession_empty_case freshId defaultModel now sessionId st h0]
    exact ⟨rfl, rfl⟩
  · intro s0 rest hcur hfil hid
    have h0 : st.sessions.filter (fun s => s.id != sessionId) ≠ [] := by
      rw [hfil]; exact List.cons_ne_nil s0 rest
    rw [deleteSession_current_case freshId defaultModel now sessionId st h0 hcur]
    simp [hfil, hid]
  · intro hmem
    unfold currentRefsExisting setCurrentSessionId
    simpa using hmem
  · unfold currentRefsExisting addSession
    simp

/-- Witness for C3 at concrete stores: deleting the only session leaves
exactly the synthesized default as current, and selecting an existing id
keeps the invariant. -/
theorem c3_witness :
    ((deleteSession freshF modelM 2 sessionA.id
          (mkStore [sessionA] (some sessionA.id))).sessions =
        [createNewSessionInternal freshF modelM 2]
      ∧ (deleteSession freshF modelM 2 sessionA.id
          (mkStore [sessionA] (some sessionA.id))).currentSessionId = some freshF)
    ∧ currentRefsExisting (setCurrentSessionId sessionA.id (mkStore [sessionA] none)) = true :=
  ⟨(c3_delete_select_invariants (mkStore [sessionA] (some sessionA.id))
      freshF modelM 2 sessionA.id).2.2.1 rfl,
   (c3_delete_select_invariants (mkStore [sessionA] none)
      freshF modelM 2 sessionA.id).2.2.2.2.1 rfl⟩

/-- Counterexample to C3 as stated: `setCurrentSessionId` is a public store
operation, yet calling it with an id that matches no session leaves
`currentSessionId` dangling. -/
theorem c3_counterexample :
    (setCurrentSessionId idB (mkStore [sessionA] (some sessionA.id))).currentSessionId =
      some idB ∧
    currentRefsExisting (setCurrentSessionId idB (mkStore [sessionA] (some sessionA.id))) =
      false := by
  exact ⟨rfl, rfl⟩

theorem findSession_setIsStreamingResponse (b : Bool) (st : SessionState) (sessionId : String) :
    findSession (setIsStreamingResponse b st) sessionId = findSession st sessionId := rfl

theorem foldl_append_shift (c : String) (rest : List String) :
    List.foldl (fun r s => r ++ s) c rest =
      c ++ List.foldl (fun r s => r ++ s) ("") rest := by
  induction rest generalizing c with
  | nil => simp
  | cons d ds ih =>
    rw [List.foldl_cons, List.foldl_cons, ih (c ++ d), String.empty_append, ih d,
      String.append_assoc]

theorem streamStep_active (now : Nat) (sessionId : String) (stopAfter : Option Nat)
    (a : StreamAcc) (chunk : String) (s : ChatSession) (base : List Message)
    (hab : a.aborted = false) (hstop : stopFired stopAfter a.idx = false)
    (hfind : findSession a.st sessionId = some s)
    (hmsgs : s.messages = base ++ [{ role := .assistant, content := a.acc }]) :
    streamStep now sessionId stopAfter a chunk =
      { st := updateSessionMessages now sessionId
          (base ++ [{ role := .assistant, content := a.acc ++ chunk }]) a.st
        acc := a.acc ++ chunk
        commitTrace := a.commitTrace ++ [a.acc ++ chunk]
        idx := a.idx + 1
        aborted := false } := by
  unfold streamStep
  simp [hab, hstop, hfind, hmsgs, List.dropLast_concat]

theorem streamLoop_no_stop (now : Nat) (sessionId : String) (chunks : List String)
    (a : StreamAcc) (s : ChatSession) (base : List Message)
    (hab : a.aborted = false)
    (hfind : findSession a.st sessionId = some s)
    (hmsgs : s.messages = base ++ [{ role := .assistant, content := a.acc }]) :
    ∃ s2,
      (chunks.foldl (streamStep now sessionId none) a).commitTrace =
        a.commitTrace ++ accPrefixes a.acc chunks ∧
      findSession (chunks.foldl (streamStep now sessionId none) a).st sessionId = some s2 ∧
      s2.messages = base ++
        [{ role := .assistant, content := a.acc ++ String.join chunks }] := by
  induction chunks generalizing a s with
  | nil =>
    refine ⟨s, ?_, hfind, ?_⟩
    · simp [accPrefixes]
    · simpa [String.join] using hmsgs
  | cons c rest ih =>
    rw [List.foldl_cons,
      streamStep_active now sessionId none a c s base hab rfl hfind hmsgs]
    have hfind2 : findSession (updateSessionMessages now sessionId
        (base ++ [{ role := .assistant, content := a.acc ++ c }]) a.st) sessionId =
        some (applyUpdates s
          { messages := some (base ++ [{ role := .assistant, content := a.acc ++ c }]) } now) := by
      unfold updateSessionMessages
      rw [findSession_updateSession, hfind]
      rfl
    have hm1 : (applyUpdates s
        { messages := some (base ++ [{ role := .assistant, content := a.acc ++ c }]) }
        now).messages =
        base ++ [{ role := .assistant, content := a.acc ++ c }] := rfl
    obtain ⟨s2, htr, hf2, hm2⟩ := ih
      { st := updateSessionMessages now sessionId
          (base ++ [{ role := .assistant, content := a.acc ++ c }]) a.st
        acc := a.acc ++ c
        commitTrace := a.commitTrace ++ [a.acc ++ c]
        idx := a.idx + 1
        aborted := false }
      (applyUpdates s
        { messages := some (base ++ [{ role := .assistant, content := a.acc ++ c }]) } now)
      rfl hfind2 hm1
    refine ⟨s2, ?_, hf2, ?_⟩
    · rw [htr]
      simp [accPrefixes]
    · rw [hm2]
      simp only [String.join, List.foldl_cons, String.empty_append]
      rw [foldl_append_shift c rest]
      simp [String.append_empty, String.append_assoc]

/-- Claim C5: a streaming send turn receiving the chunks "Hel", "lo",
" world" commits the accumulator values "Hel", "Hello", "Hello world" in
that order — one commit per chunk, each replacing the last message slot —
and the session's final assistant message equals "Hello world". -/
theorem c5_streaming_commits (st : SessionState) (session : ChatSession) (message : String)
    (now : Nat) (h1 : jsTrim message ≠ "") (h2 : session.model ≠ "")
    (h3 : (findSession st session.id).isSome = true) :
    (handleSendStream now session message chunks3 none st).commitTrace =
      [("Hel"), ("Hello"), ("Hello world")]
    ∧ ((findSession (handleSendStream now session message chunks3 none st).finalState
          session.id).elim [] (fun s => s.messages)) =
        session.messages ++ [{ role := .user, content := message },
          { role := .assistant, content := ("Hello world") }] := by
  obtain ⟨s0, hs0⟩ := Option.isSome_iff_exists.mp h3
  have hneg : ¬(jsTrim message = "" ∨ session.model = "") := not_or.mpr ⟨h1, h2⟩
  simp only [handleSendStream, if_neg hneg]
  have hf3 : findSession (updateSessionMessages now session.id
      ((session.messages ++ [{ role := .user, content := message }]) ++
        [{ role := .assistant, content := ("") }])
      (updateSessionMessages now session.id
        (session.messages ++ [{ role := .user, content := message }])
        (setIsStreamingResponse true st))) session.id =
      some (applyUpdates
        (applyUpdates s0
          { messages := some (session.messages ++ [{ role := .user, content := message }]) } now)
        { messages := some ((session.messages ++ [{ role := .user, content := message }]) ++
          [{ role := .assistant, content := ("") }]) } now) := by
    unfold updateSessionMessages
    rw [findSession_updateSession, findSession_updateSession,
      findSession_setIsStreamingResponse, hs0]
    rfl
  have hm3 : (applyUpdates
      (applyUpdates s0
        { messages := some (session.messages ++ [{ role := .user, content := message }]) } now)
      { messages := some ((session.messages ++ [{ role := .user, content := message }]) ++
        [{ role := .assistant, content := ("") }]) } now).messages =
      (session.messages ++ [{ role := .user, content := message }]) ++
        [{ role := .assistant, content := ("") }] := rfl
  obtain ⟨s2, htr, hf2, hm2⟩ := streamLoop_no_stop now session.id chunks3
    { st := updateSessionMessages now session.id
        ((session.messages ++ [{ role := .user, content := message }]) ++
          [{ role := .assistant, content := ("") }])
        (updateSessionMessages now session.id
          (session.messages ++ [{ role := .user, content := message }])
          (setIsStreamingResponse true st))
      acc := ("")
      commitTrace := []
      idx := 0
      aborted := false }
    (applyUpdates
      (applyUpdates s0
        { messages := some (session.messages ++ [{ role := .user, content := message }]) } now)
      { messages := some ((session.messages ++ [{ role := .user, content := message }]) ++
        [{ role := .assistant, content := ("") }]) } now)
    (session.messages ++ [{ role := .user, content := message }]) rfl hf3 hm3
  constructor
  · rw [htr]
    rfl
  · rw [findSession_setIsStreamingResponse, hf2]
    simp only [Option.elim]
    rw [hm2]
    simp [String.join, chunks3, List.append_assoc]

/-- Witness for C5 at a concrete store. -/
theorem c5_witness :
    (handleSendStream 3 sessionA msgSend chunks3 none
        (mkStore [sessionA] (some sessionA.id))).commitTrace =
      [("Hel"), ("Hello"), ("Hello world")]
    ∧ ((findSession (handleSendStream 3 sessionA msgSend chunks3 none
          (mkStore [sessionA] (some sessionA.id))).finalState
          sessionA.id).elim [] (fun s => s.messages)) =
        sessionA.messages ++ [{ role := .user, content := msgSend },
          { role := .assistant, content := ("Hello world") }] :=
  c5_streaming_commits (mkStore [sessionA] (some sessionA.id)) sessionA msgSend 3
    (by decide) (by decide) rfl

/-- Claim C1 (the code bug): stopping the stream after two committed chunks
retains exactly those chunks' accumulated content as the final assistant
message and resets the global streaming flag, but — because the abort check
exits the chunk loop with `break` and execution falls through to
`triggerMetadataGeneration()` — all three metadata-generation inference
calls are still issued for the turn (the session name still being the
default sentinel). -/
theorem c1_stop_retains_but_metadata_fires :
    c1Result.commitTrace = [("Hel"), ("Hello")]
    ∧ ((findSession c1Result.finalState sessionA.id).elim []
        (fun s => s.messages)).getLast? =
        some { role := .assistant, content := ("Hello") }
    ∧ c1Result.finalState.isStreamingResponse = false
    ∧ c1Result.metadataRequests = [.nameKind, .tagsKind, .notesKind] := by
  exact ⟨rfl, rfl, rfl, rfl⟩

/-- Claim C4 (amended): invalid input (not an array of objects each with a
truthy id and name) triggers the validation alert and leaves the store
untouched; valid input replaces the entire collection with the normalized
records (missing tags become the empty list, missing notes the empty
string, missing bookmark/favorite false, missing timestamps the import
time) and current becomes the first imported session's id, or null when
the import is empty.  (A present-but-unparseable timestamp becomes an Invalid
Date, not the import time: see the counterexample.) -/
theorem c4_import_validation_and_normalization (now : Nat) (freshIdAt : Nat → String)
    (defaultModel : String) (st : SessionState) :
    (∀ input, validImportInput input = false →
      handleFileChange now freshIdAt defaultModel input st = (st, true))
    ∧ (∀ items, validImportInput (.arrayOf items) = true →
      handleFileChange now freshIdAt defaultModel (.arrayOf items) st =
        (importSessions now freshIdAt defaultModel (itemRecords items) st, false))
    ∧ (∀ records, (importSessions now freshIdAt defaultModel records st).sessions =
        records.enum.map (fun p => normalizeRecord now (freshIdAt p.1) defaultModel p.2))
    ∧ ((importSessions now freshIdAt defaultModel [] st).currentSessionId = none)
    ∧ (∀ r0 rest, (importSessions now freshIdAt defaultModel (r0 :: rest) st).currentSessionId =
        (if strOrDefault r0.id (freshIdAt 0) = "" then none
          else some (strOrDefault r0.id (freshIdAt 0))))
    ∧ (∀ r fid, r.tags = none → (normalizeRecord now fid defaultModel r).tags = [])
    ∧ (∀ r fid, r.notes = none → (normalizeRecord now fid defaultModel r).notes = "")
    ∧ (∀ r fid, r.isBookmarked = none →
        (normalizeRecord now fid defaultModel r).isBookmarked = false)
    ∧ (∀ r fid, r.isFavorite = none →
        (normalizeRecord now fid defaultModel r).isFavorite = false)
    ∧ (∀ r fid, r.createdAt = .missing →
        (normalizeRecord now fid defaultModel r).createdAt = .valid now)
    ∧ (∀ r fid, r.updatedAt = .missing →
        (normalizeRecord now fid defaultModel r).updatedAt = .valid now) := by
  refine ⟨?_, ?_, ?_, rfl, ?_, ?_, ?_, ?_, ?_, ?_, ?_⟩
  · intro input hinv
    cases input with
    | notArray => rfl
    | arrayOf items =>
      have hall : items.all validImportItem = false := hinv
      simp [handleFileChange, hall]
  · intro items hv
    have hall : items.all validImportItem = true := hv
    simp [handleFileChange, hall]
  · intro records
    rfl
  · intro r0 rest
    simp [importSessions, List.enum_cons, normalizeRecord]
  · intro r fid h
    simp [normalizeRecord, h]
  · intro r fid h
    simp [normalizeRecord, h]
  · intro r fid h
    simp [normalizeRecord, h]
  · intro r fid h
    simp [normalizeRecord, h]
  · intro r fid h
    simp [normalizeRecord, h, jsDateOfInput]
  · intro r fid h
    simp [normalizeRecord, h, jsDateOfInput]

/-- Witness for C4 at concrete inputs: a non-array input alerts and leaves
the store unchanged, and a record missing tags, notes, flags and timestamps
normalizes to the documented defaults. -/
theorem c4_witness :
    handleFileChange 9 (fun _ => freshF) modelM .notArray (mkStore [sessionA] none) =
      (mkStore [sessionA] none, true)
    ∧ (normalizeRecord 9 freshF modelM { id := some ("r1"), name := some ("n") }).tags = []
    ∧ (normalizeRecord 9 freshF modelM { id := some ("r1"), name := some ("n") }).notes = ""
    ∧ (normalizeRecord 9 freshF modelM
        { id := some ("r1"), name := some ("n") }).isBookmarked = false
    ∧ (normalizeRecord 9 freshF modelM
        { id := some ("r1"), name := some ("n") }).createdAt = .valid 9 :=
  let c4 := c4_import_validation_and_normalization 9 (fun _ => freshF) modelM
    (mkStore [sessionA] none)
  ⟨c4.1 .notArray rfl,
   c4.2.2.2.2.2.1 _ freshF rfl,
   c4.2.2.2.2.2.2.1 _ freshF rfl,
   c4.2.2.2.2.2.2.2.1 _ freshF rfl,
   c4.2.2.2.2.2.2.2.2.2.1 _ freshF rfl⟩

/-- Counterexample to C4 as stated: a record whose `createdAt` is present
but unparseable is imported with an Invalid Date timestamp, not the import
time (99 here). -/
theorem c4_counterexample :
    (importSessions 99 (fun _ => freshF) modelM
        [{ id := some ("r1"), name := some ("n"), createdAt := .unparseable }]
        (mkStore [] none)).sessions.map (fun s => s.createdAt) = [JsDate.invalidDate]
    ∧ JsDate.invalidDate ≠ JsDate.valid 99 := by
  exact ⟨rfl, by decide⟩

theorem roundtrip_one (now : Nat) (fid dm : String) (s : ChatSession) :
    normalizeRecord now fid dm (exportRecord s) = reimportedSession fid dm s := by
  cases hc : s.createdAt <;> cases hu : s.updatedAt <;>
    simp [normalizeRecord, exportRecord, exportTime, jsDateOfInput, reimportedSession,
      strOrDefault, hc, hu]

theorem roundtrip_list (sessions : List ChatSession) (now : Nat) (dm : String)
    (g : Nat → String) (n : Nat) :
    ((sessions.map exportRecord).enumFrom n).map
        (fun p => normalizeRecord now (g p.1) dm p.2) =
      (sessions.enumFrom n).map (fun p => reimportedSession (g p.1) dm p.2) := by
  induction sessions generalizing n with
  | nil => rfl
  | cons s rest ih =>
    rw [List.map_cons, List.enumFrom_cons, List.enumFrom_cons, List.map_cons, List.map_cons,
      roundtrip_one now (g n) dm s, ih (n + 1)]

/-- Claim C7 (amended): exporting all sessions and importing the exported
records reproduces the collection up to `importSessions`' normalization —
for every session, messages, tags, notes and both flags come back
unchanged, a valid timestamp comes back exactly equal (the serialized
ISO-8601 millisecond form round-trips losslessly), and the remaining
fields change in exactly three documented ways: a session with no options
object comes back with an empty options object; an empty id, name, system
prompt or model is re-defaulted (fresh uuid, default name, default system
prompt, the registry's default model); and an Invalid-Date timestamp is
exported as the epoch (Date.prototype.toJSON yields null before the
replacer runs) and comes back as 1970-01-01T00:00:00.000Z. -/
theorem c7_export_import_roundtrip (sessions : List ChatSession) (st : SessionState)
    (now : Nat) (freshIdAt : Nat → String) (defaultModel : String) :
    (importSessions now freshIdAt defaultModel (exportSessions sessions) st).sessions =
      sessions.enum.map (fun p => reimportedSession (freshIdAt p.1) defaultModel p.2) := by
  show ((sessions.map exportRecord).enumFrom 0).map
      (fun p => normalizeRecord now (freshIdAt p.1) defaultModel p.2) =
    (sessions.enumFrom 0).map (fun p => reimportedSession (freshIdAt p.1) defaultModel p.2)
  exact roundtrip_list sessions now defaultModel freshIdAt 0

/-- Counterexample to C7 as stated ("same values for every session field"):
the round trip turns absent options into a present empty options object,
re-defaults an empty system prompt to the default prompt, and turns an
Invalid-Date timestamp into the epoch. -/
theorem c7_counterexample :
    ((importSessions 7 (fun _ => freshF) modelM (exportSessions [sessionA])
          (mkStore [] none)).sessions.map (fun s => s.options.isSome) = [true]
      ∧ [sessionA].map (fun s => s.options.isSome) = [false])
    ∧ ((importSessions 7 (fun _ => freshF) modelM (exportSessions [sessionEmptyPrompt])
          (mkStore [] none)).sessions.map (fun s => s.systemPrompt) =
            [DEFAULT_SYSTEM_PROMPT]
      ∧ sessionEmptyPrompt.systemPrompt = ""
      ∧ DEFAULT_SYSTEM_PROMPT ≠ "")
    ∧ ((importSessions 7 (fun _ => freshF) modelM (exportSessions [sessionInvalidDate])
          (mkStore [] none)).sessions.map (fun s => s.createdAt) = [JsDate.valid 0]
      ∧ sessionInvalidDate.createdAt = JsDate.invalidDate) := by
  exact ⟨⟨rfl, rfl⟩, ⟨rfl, rfl, by decide⟩, ⟨rfl, rfl⟩⟩

theorem containsSub_nil (hay : List Char) : containsSub [] hay = true := by
  cases hay <;> simp [containsSub, List.isPrefixOf]

theorem contains_empty (s : String) : containsCI s ("") = true :=
  containsSub_nil (lowerStr s).data

theorem mk_ne_empty (l : List Char) (h : l ≠ []) : String.mk l ≠ ("") := by
  intro he
  exact h (by simpa using congrArg String.data he)

theorem specStr_eq_not_fail (field : String) (o : Option String) :
    specOpHoldsStr field o = !(opFailStr field o) := by
  cases o with
  | none => rfl
  | some v =>
    by_cases hv : v = ""
    · subst hv
      simp [specOpHoldsStr, opFailStr, contains_empty]
    · simp [specOpHoldsStr, opFailStr, hv]

theorem specTags_eq_not_fail (tags : List String) (o : Option String)
    (ho : ∀ v, o = some v → v ≠ "") :
    specOpHoldsTags tags o = !(opFailTags tags o) := by
  cases o with
  | none => rfl
  | some v => simp [specOpHoldsTags, opFailTags, ho v rfl]

theorem specIn_eq_not_fail (messages : List Message) (o : Option String)
    (ho : ∀ v, o = some v → v ≠ "") :
    specOpHoldsIn messages o = !(opFailIn messages o) := by
  cases o with
  | none => rfl
  | some v => simp [specOpHoldsIn, opFailIn, searchMessages, ho v rfl]

theorem specType_eq_not_fail (s : ChatSession) (o : Option TypeFilter) :
    specOpHoldsType s o = !(opFailType s o) := by
  cases o with
  | none => rfl
  | some t => cases t <;> simp [specOpHoldsType, opFailType]

theorem matches_eq_spec (q : SearchQuery) (s : ChatSession)
    (htag : ∀ v, q.operators.tag = some v → v ≠ "")
    (hin : ∀ v, q.operators.inMsgs = some v → v ≠ "")
    (hraw : ¬q.raw = "") :
    sessionMatchesQuery q s = specKeepsSession q s := by
  unfold specKeepsSession sessionMatchesQuery
  rw [if_neg hraw,
    specStr_eq_not_fail s.systemPrompt q.operators.system,
    specStr_eq_not_fail s.name q.operators.name,
    specStr_eq_not_fail s.notes q.operators.note,
    specTags_eq_not_fail s.tags q.operators.tag htag,
    specIn_eq_not_fail s.messages q.operators.inMsgs hin,
    specType_eq_not_fail s q.operators.type]
  simp only [searchMessages]
  generalize opFailStr s.systemPrompt q.operators.system = a1
  generalize opFailStr s.name q.operators.name = a2
  generalize opFailTags s.tags q.operators.tag = a3
  generalize opFailStr s.notes q.operators.note = a4
  generalize opFailIn s.messages q.operators.inMsgs = a5
  generalize opFailType s q.operators.type = a6
  generalize (q.text == "") = t0
  generalize containsCI s.name q.text = c1
  generalize s.tags.any (fun t => containsCI t q.text) = c2
  generalize containsCI s.notes q.text = c3
  generalize s.messages.any (fun m => containsCI m.content q.text) = c4
  revert a1 a2 a3 a4 a5 a6 t0 c1 c2 c3 c4
  decide

theorem unquotedValue_ne (rest v vt : List Char) (h : unquotedValue rest = some (v, vt)) :
    v ≠ [] := by
  unfold unquotedValue at h
  by_cases hv : rest.takeWhile (fun c => !c.isWhitespace) = []
  · rw [if_pos hv] at h
    exact absurd h (by simp)
  · rw [if_neg hv] at h
    obtain ⟨hv2, _⟩ := Prod.mk.injEq .. ▸ Option.some_inj.mp h
    exact hv2 ▸ hv

theorem parseValue_ne (rest v vt : List Char) (h : parseValue rest = some (v, vt)) :
    v ≠ [] := by
  unfold parseValue at h
  split at h
  · split at h
    · split at h
      · exact unquotedValue_ne _ _ _ h
      · rename_i inside_ne
        obtain ⟨hv2, _⟩ := Prod.mk.injEq .. ▸ Option.some_inj.mp h
        exact hv2 ▸ inside_ne
    · exact unquotedValue_ne _ _ _ h
  · exact unquotedValue_ne _ _ _ h

theorem tryOp_value_ne (word : List Char) (op : OpName) (cs : List Char) (tok : OpToken)
    (h : tryOp word op cs = some tok) : tok.value ≠ [] := by
  unfold tryOp at h
  split at h
  · split at h
    · rename_i v vtext hpv
      rw [← Option.some_inj.mp h]
      exact parseValue_ne _ _ _ hpv
    · exact absurd h (by simp)
  · exact absurd h (by simp)

theorem matchOpAt_value_ne (cs : List Char) (tok : OpToken)
    (h : matchOpAt cs = some tok) : tok.value ≠ [] := by
  unfold matchOpAt at h
  split at h
  · rename_i tok0 hm
    obtain rfl := Option.some_inj.mp h
    exact tryOp_value_ne _ _ _ _ hm
  · split at h
    · rename_i tok0 hm
      obtain rfl := Option.some_inj.mp h
      exact tryOp_value_ne _ _ _ _ hm
    · split at h
      · rename_i tok0 hm
        obtain rfl := Option.some_inj.mp h
        exact tryOp_value_ne _ _ _ _ hm
      · split at h
        · rename_i tok0 hm
          obtain rfl := Option.some_inj.mp h
          exact tryOp_value_ne _ _ _ _ hm
        · split at h
          · rename_i tok0 hm
            obtain rfl := Option.some_inj.mp h
            exact tryOp_value_ne _ _ _ _ hm
          · exact tryOp_value_ne _ _ _ _ h

theorem scanTokens_value_ne (fuel : Nat) (cs : List Char) :
    ∀ tok ∈ scanTokens fuel cs, tok.value ≠ [] := by
  induction fuel generalizing cs with
  | zero =>
    intro tok htok
    simp [scanTokens] at htok
  | succ fuel ih =>
    intro tok htok
    cases cs with
    | nil => simp [scanTokens] at htok
    | cons c rest =>
      unfold scanTokens at htok
      revert htok
      split
      · rename_i tok0 hm
        intro htok
        rcases List.mem_cons.mp htok with he | hmem
        · exact he ▸ matchOpAt_value_ne _ _ hm
        · exact ih _ tok hmem
      · intro htok
        exact ih rest tok htok

/-- Well-formedness of the accumulated operators: the tag and in values are
never the empty string (the regex captures at least one character). -/
def OpsWF (ops : Operators) : Prop :=
  (∀ v, ops.tag = some v → v ≠ "") ∧ (∀ v, ops.inMsgs = some v → v ≠ "")

theorem applyToken_wf (acc : Operators × String) (tok : OpToken)
    (hacc : OpsWF acc.1) (hv : tok.value ≠ []) : OpsWF (applyToken acc tok).1 := by
  obtain ⟨htag, hin⟩ := hacc
  unfold applyToken
  cases tok.op with
  | systemOp => exact ⟨htag, hin⟩
  | nameOp => exact ⟨htag, hin⟩
  | tagOp =>
    refine ⟨?_, hin⟩
    intro v hv2
    obtain he := Option.some_inj.mp hv2
    exact he ▸ mk_ne_empty _ hv
  | noteOp => exact ⟨htag, hin⟩
  | inOp =>
    refine ⟨htag, ?_⟩
    intro v hv2
    obtain he := Option.some_inj.mp hv2
    exact he ▸ mk_ne_empty _ hv
  | typeOp =>
    by_cases h1 : lowerStr (String.mk tok.value) = "bookmarked"
    · simp only [h1, if_pos]
      exact ⟨htag, hin⟩
    · by_cases h2 : lowerStr (String.mk tok.value) = "favorite"
      · simp only [h1, h2, if_neg, if_pos, ite_false, ite_true]
        exact ⟨htag, hin⟩
      · simp only [h1, h2, ite_false]
        exact ⟨htag, hin⟩

theorem foldl_applyToken_wf (toks : List OpToken) (acc : Operators × String)
    (hacc : OpsWF acc.1) (htoks : ∀ tok ∈ toks, tok.value ≠ []) :
    OpsWF (toks.foldl applyToken acc).1 := by
  induction toks generalizing acc with
  | nil => exact hacc
  | cons tok rest ih =>
    rw [List.foldl_cons]
    exact ih (applyToken acc tok)
      (applyToken_wf acc tok hacc (htoks tok (List.mem_cons_self tok rest)))
      (fun t ht => htoks t (List.mem_cons_of_mem tok ht))

theorem parse_wf (input : String) : OpsWF (parseSearchQuery input).operators := by
  unfold parseSearchQuery
  exact foldl_applyToken_wf _ _ ⟨fun v h => by simp at h, fun v h => by simp at h⟩
    (scanTokens_value_ne input.data.length input.data)

/-- Claim C6: the search filter keeps a session iff it satisfies the
conjunction of all operators present after parsing (system/name/note as
case-insensitive substrings, tag over at least one tag, `in` over at least
one message, `type:bookmarked`/`type:favorite` over the flags) and, when
residual free text remains, at least one of name, any tag, notes or any
message content contains it case-insensitively; an empty raw input keeps
every session unchanged; a `type` operator with any other value is silently
discarded and stripped from the free text rather than treated as free
text. -/
theorem c6_search_filter_semantics :
    (∀ sessions, filterSessions sessions (parseSearchQuery ("")) = sessions)
    ∧ (∀ input sessions, filterSessions sessions (parseSearchQuery input) =
        sessions.filter (specKeepsSession (parseSearchQuery input)))
    ∧ ((parseSearchQuery ("type:xyz hello")).operators.type = none
        ∧ (parseSearchQuery ("type:xyz hello")).text = "hello"
        ∧ (parseSearchQuery ("type:bookmarked tag:work")).operators.type =
            some .bookmarked
        ∧ (parseSearchQuery ("type:bookmarked tag:work")).operators.tag = some ("work")
        ∧ (parseSearchQuery ("type:bookmarked tag:work")).text = "") := by
  refine ⟨?_, ?_, rfl, rfl, rfl, rfl, rfl⟩
  · intro sessions
    rfl
  · intro input sessions
    by_cases hraw : input = ""
    · subst hraw
      unfold filterSessions
      rw [if_pos (show (parseSearchQuery ("")).raw = "" from rfl)]
      refine (List.filter_eq_self.mpr ?_).symm
      intro a _
      rfl
    · have hq : (parseSearchQuery input).raw = input := rfl
      unfold filterSessions
      rw [if_neg (by rw [hq]; exact hraw)]
      refine List.filter_congr ?_
      intro s _
      exact matches_eq_spec (parseSearchQuery input) s (parse_wf input).1 (parse_wf input).2
        (by rw [hq]; exact hraw)

end ChinWag
